import Mathlib

/-!
Shallow embedding of `src/lib/server/process.ts` (class `ImageVideoProcessor`),
the merge-decision / compositing / frame-sequencing / streaming-encode pipeline.

Modelling conventions:
* An image buffer is opaque; only what the code reads from `sharp(buffer).metadata()`
  matters, namely `width` and `height`, each of which may be absent (`undefined`)
  for a corrupt buffer.  A JavaScript falsy check `!metadata.width` rejects both
  `undefined` and `0`, so validity means `some w` with `w ≠ 0`.
* JavaScript number arithmetic on the dimension ratios is modelled over `ℚ`
  (the dimensions are integers, so the quantities compared are exact rationals).
* The external `sharp` composite call is modelled by recording exactly the canvas
  specification and placement list the code passes to it (`MergedFrame`); the
  external encoder invocation is modelled by recording the arguments the code
  passes to `fluent-ffmpeg` (`FfmpegInvocation`).
* Fallible code (`throw new ImageProcessingError`) is modelled with `Except`.
-/

namespace RTCam

/-- An image buffer as the code observes it through `sharp(image).metadata()`:
`width` and `height` may be absent for corrupt/unsupported buffers. -/
structure Image where
  width? : Option Nat
  height? : Option Nat
  deriving DecidableEq

/-- Model of `interface ImagePair { first: Buffer; second: Buffer }`. -/
structure ImagePair where
  first : Image
  second : Image
  deriving DecidableEq

/-- Model of `enum MergeDirection { HORIZONTAL, VERTICAL }`. -/
inductive MergeDirection
  | horizontal
  | vertical
  deriving DecidableEq

/-- The single error kind thrown by the processing code itself:
`new ImageProcessingError('Invalid image metadata')`. -/
inductive ProcError
  | invalidMetadata
  deriving DecidableEq

/-- Model of `interface ImageDimensions { width; height; aspectRatio }`. -/
structure ImageDimensions where
  width : Nat
  height : Nat
  aspectRatio : ℚ
  deriving DecidableEq

/-- Model of `getImageDimensions`: reads metadata, throws when `!metadata.width || !metadata.height`
(absent or zero dimension), otherwise returns `{width, height, aspectRatio: width/height}`. -/
def getImageDimensions (image : Image) : Except ProcError ImageDimensions :=
  match image.width?, image.height? with
  | some w, some h =>
      if w = 0 ∨ h = 0 then .error .invalidMetadata
      else .ok { width := w, height := h, aspectRatio := (w : ℚ) / (h : ℚ) }
  | _, _ => .error .invalidMetadata

/-- Model of `determineMergeDirection`: compares the two candidate combined aspect ratios
against the literal target constant `9 / 16` and picks HORIZONTAL exactly when its
distance is strictly smaller. -/
def determineMergeDirection (image1 image2 : Image) : Except ProcError MergeDirection := do
  let d1 ← getImageDimensions image1
  let d2 ← getImageDimensions image2
  let horizontalAspect : ℚ := ((d1.width + d2.width : Nat) : ℚ) / ((max d1.height d2.height : Nat) : ℚ)
  let verticalAspect : ℚ := ((max d1.width d2.width : Nat) : ℚ) / ((d1.height + d2.height : Nat) : ℚ)
  let idealAspect : ℚ := 9 / 16
  let horizontalDiff : ℚ := |horizontalAspect - idealAspect|
  let verticalDiff : ℚ := |verticalAspect - idealAspect|
  pure (if horizontalDiff < verticalDiff then .horizontal else .vertical)

/-- RGBA background colour passed to the sharp canvas `create` spec. -/
structure RGBA where
  r : Nat
  g : Nat
  b : Nat
  alpha : Nat
  deriving DecidableEq

/-- The `create:` canvas specification the code passes to sharp. -/
structure CanvasSpec where
  width : Nat
  height : Nat
  channels : Nat
  background : RGBA
  deriving DecidableEq

/-- One element of the `composite([...])` placement list. -/
structure Placement where
  input : Image
  left : Nat
  top : Nat
  deriving DecidableEq

/-- The merged frame, modelled as the exact canvas spec and placement list the
code hands to the (black-box) compositor. -/
structure MergedFrame where
  create : CanvasSpec
  composite : List Placement
  deriving DecidableEq

/-- Model of `mergeSideBySide`: inline metadata check, then a canvas of width
`w1 + w2`, height `max h1 h2`, 4 channels, opaque white background, with
image1 at left 0 and image2 at left `w1`, each vertically centred by
`Math.floor((totalHeight - h) / 2)` (equal to `Nat` division since
`totalHeight ≥ h`). -/
def mergeSideBySide (image1 image2 : Image) : Except ProcError MergedFrame :=
  match image1.width?, image2.width?, image1.height?, image2.height? with
  | some w1, some w2, some h1, some h2 =>
      if w1 = 0 ∨ w2 = 0 ∨ h1 = 0 ∨ h2 = 0 then .error .invalidMetadata
      else
        let totalHeight := max h1 h2
        .ok
          { create :=
              { width := w1 + w2, height := totalHeight, channels := 4
                background := { r := 255, g := 255, b := 255, alpha := 1 } }
            composite :=
              [ { input := image1, left := 0, top := (totalHeight - h1) / 2 },
                { input := image2, left := w1, top := (totalHeight - h2) / 2 } ] }
  | _, _, _, _ => .error .invalidMetadata

/-- Model of `mergeTopAndBottom`: inline metadata check, then a canvas of width
`max w1 w2`, height `h1 + h2`, 4 channels, opaque white background, with
image1 at top 0 and image2 at top `h1`, each horizontally centred by
`Math.floor((totalWidth - w) / 2)`. -/
def mergeTopAndBottom (image1 image2 : Image) : Except ProcError MergedFrame :=
  match image1.width?, image2.width?, image1.height?, image2.height? with
  | some w1, some w2, some h1, some h2 =>
      if w1 = 0 ∨ w2 = 0 ∨ h1 = 0 ∨ h2 = 0 then .error .invalidMetadata
      else
        let totalWidth := max w1 w2
        .ok
          { create :=
              { width := totalWidth, height := h1 + h2, channels := 4
                background := { r := 255, g := 255, b := 255, alpha := 1 } }
            composite :=
              [ { input := image1, left := (totalWidth - w1) / 2, top := 0 },
                { input := image2, left := (totalWidth - w2) / 2, top := h1 } ] }
  | _, _, _, _ => .error .invalidMetadata

/-- Model of `mergeImages`: pick the direction, then dispatch to the matching merge. -/
def mergeImages (image1 image2 : Image) : Except ProcError MergedFrame := do
  let direction ← determineMergeDirection image1 image2
  match direction with
  | .horizontal => mergeSideBySide image1 image2
  | .vertical => mergeTopAndBottom image1 image2

/-- Model of `interface ProcessingOptions { folder; fps?; cleanup? }`. -/
structure ProcessingOptions where
  folder : String
  fps? : Option Nat
  cleanup? : Option Bool
  deriving DecidableEq

/-- The fields of `class ImageVideoProcessor` after the constructor ran. -/
structure ImageVideoProcessor where
  outputDir : String
  fps : Nat
  shouldCleanup : Bool
  deriving DecidableEq

/-- Model of `join` from `path` on two segments. -/
def pathJoin (a b : String) : String := a ++ "/" ++ b

/-- The constructor: `outputDir = join(env.OUTPUT_DIR, folder)`, `fps = 24` when
not supplied, `cleanup = false` when not supplied. -/
def ImageVideoProcessor.create (envOutputDir : String) (opts : ProcessingOptions) :
    ImageVideoProcessor :=
  { outputDir := pathJoin envOutputDir opts.folder
    fps := opts.fps?.getD 24
    shouldCleanup := opts.cleanup?.getD false }

/-- The arguments `createVideoFromImages` passes to the fluent-ffmpeg builder. -/
structure FfmpegInvocation where
  input : String
  inputFPS : Nat
  format : String
  videoCodec : String
  outputOptions : List String
  deriving DecidableEq

/-- The ffmpeg invocation built by `createVideoFromImages(inputDir)`. -/
def ffmpegArgs (p : ImageVideoProcessor) (inputDir : String) : FfmpegInvocation :=
  { input := inputDir ++ "/%d.jpg"
    inputFPS := p.fps
    format := "mp4"
    videoCodec := "libx264"
    outputOptions := ["-movflags frag_keyframe+empty_moov"] }

/-- Model of `Promise.all` over the per-pair `mergeImages` calls: succeeds with the list of
merged buffers in input order iff every pair merges; fails if any pair fails. -/
def sequenceFrames : List ImagePair → Except ProcError (List MergedFrame)
  | [] => .ok []
  | pair :: rest => do
      let buffer ← mergeImages pair.first pair.second
      let buffers ← sequenceFrames rest
      pure (buffer :: buffers)

/-- Model of `(pair, index) => writeFile(join(outputDir, (index+1) + '.jpg'), buffer)`:
the write list pairs the numeric filename `index + 1` (standing for the file
`(index+1).jpg`) with the merged buffer at that input position. -/
def numberFrames (start : Nat) : List MergedFrame → List (Nat × MergedFrame)
  | [] => []
  | buffer :: rest => (start, buffer) :: numberFrames (start + 1) rest

/-- The observable result of a successful `processImagesAndCreateVideo` call:
the output directory was created, the numbered frame files were written, and
the encoder was started with the recorded invocation, whose output stream is
what the promise resolves with. -/
structure JobResult where
  dirCreated : Bool
  frameWrites : List (Nat × MergedFrame)
  invocation : FfmpegInvocation
  deriving DecidableEq

/-- Model of `processImagesAndCreateVideo(imagePairs)`: create the output directory,
merge and write every pair (failing the whole call if any pair fails), then
start the encoder on the output directory and resolve with its stream. -/
def processImagesAndCreateVideo (p : ImageVideoProcessor) (imagePairs : List ImagePair) :
    Except ProcError JobResult := do
  let merged ← sequenceFrames imagePairs
  pure
    { dirCreated := true
      frameWrites := numberFrames 1 merged
      invocation := ffmpegArgs p p.outputDir }

/-- Directory contents: map from numeric frame filename to the bytes last
written there. -/
def Dir := Nat → Option MergedFrame

/-- Model of `fs.writeFile`: whole-buffer overwrite of one named file. -/
def writeFile (dir : Dir) (name : Nat) (contents : MergedFrame) : Dir :=
  fun n => if n = name then some contents else dir n

/-- The directory state after the write operations complete in the given
order (the concurrent writes of the frame sequencer settle in an arbitrary
interleaving; each completed write deposits its whole buffer at its name). -/
def runWrites (writes : List (Nat × MergedFrame)) : Dir :=
  writes.foldl (fun dir w => writeFile dir w.1 w.2) (fun _ => none)

/-! ### Runtime model of `createVideoFromImages` (promise and PassThrough stream)

The executor of `new Promise((resolve, reject) => ...)` registers the ffmpeg
event handlers, pipes ffmpeg output into a fresh `PassThrough` with
`{ end: true }`, and then calls `resolve(passThrough)` synchronously.  JavaScript
promise semantics: only the first `resolve`/`reject` settles a promise; later
calls are no-ops.  Node pipe semantics with `end: true`: when the source stream
ends (which happens both when ffmpeg finishes and when the ffmpeg process dies,
closing its stdout), the destination receives a normal `end`; `pipe` never
forwards an `error` to the destination.  The handlers below are the literal
bodies of the `.on('error', ...)` and `.on('end', ...)` callbacks. -/

/-- Settlement state of the promise returned by `createVideoFromImages`. -/
inductive PromiseState
  | pending
  | resolvedStream
  | rejected (msg : String)
  deriving DecidableEq

/-- Model of `resolve(...)`: it settles only a pending promise. -/
def resolveP : PromiseState → PromiseState
  | .pending => .resolvedStream
  | s => s

/-- Model of `reject(err)`: it settles only a pending promise. -/
def rejectP (msg : String) : PromiseState → PromiseState
  | .pending => .rejected msg
  | s => s

/-- Observable state of the `PassThrough` stream handed to the consumer. -/
structure PassThroughState where
  errored : Option String
  ended : Bool
  deriving DecidableEq

/-- The primitive effects a callback body can perform on the promise and on
the PassThrough stream. -/
inductive HandlerAction
  | logLine (s : String)
  | resolvePromise
  | rejectPromise (msg : String)
  | destroyStream (msg : String)
  | endStream
  deriving DecidableEq

/-- Effect of one action on the (promise, stream) pair. -/
def runAction : PromiseState × PassThroughState → HandlerAction → PromiseState × PassThroughState
  | (p, s), .logLine _ => (p, s)
  | (p, s), .resolvePromise => (resolveP p, s)
  | (p, s), .rejectPromise m => (rejectP m p, s)
  | (p, s), .destroyStream m => (p, { s with errored := some m })
  | (p, s), .endStream => (p, { s with ended := true })

def runActions (st : PromiseState × PassThroughState) (as : List HandlerAction) :
    PromiseState × PassThroughState :=
  as.foldl runAction st

/-- Body of `.on('error', (err, stdout, stderr) => ...)`: three `console.error`
lines, then `reject(err)`.  It performs no action on the PassThrough stream. -/
def onErrorActions (errMsg sout serr : String) : List HandlerAction :=
  [ .logLine ("FFmpeg error: " ++ errMsg),
    .logLine ("stdout: " ++ sout),
    .logLine ("stderr: " ++ serr),
    .rejectPromise errMsg ]

/-- Body of `.on('end', () => ...)`: one `console.log` line, nothing else. -/
def onEndActions : List HandlerAction :=
  [ .logLine "FFmpeg processing finished" ]

/-- How the spawned encoder process terminates after the stream was handed out. -/
inductive EncoderOutcome
  | finished
  | crashed (errMsg sout serr : String)

/-- Complete run of `createVideoFromImages` for a given encoder outcome:
the executor resolves the promise synchronously with the PassThrough; later the
encoder terminates, firing the corresponding handler; in both outcomes the
ffmpeg stdout side of the `pipe(passThrough, { end: true })` closes, ending the
destination stream. -/
def createVideoRun (outcome : EncoderOutcome) : PromiseState × PassThroughState :=
  let afterExecutor := runActions (.pending, { errored := none, ended := false }) [.resolvePromise]
  match outcome with
  | .finished => runActions afterExecutor (onEndActions ++ [.endStream])
  | .crashed errMsg sout serr =>
      runActions afterExecutor (onErrorActions errMsg sout serr ++ [.endStream])

/-! ### Event-trace model of `processImagesAndCreateVideo` (success path)

The `await` structure of the code serializes: `fs.mkdir` first, then all
concurrent per-pair writes complete (in an arbitrary order — `completionOrder`
is any permutation of the input positions) before `Promise.all` resolves, then
`createVideoFromImages` spawns the encoder and resolves synchronously with the
stream; the encoder finishes only later. -/

inductive Event
  | mkdirOutput
  | frameWritten (index : Nat)
  | encoderStarted
  | promiseResolved
  | encoderFinished
  deriving DecidableEq

/-- The ordered trace of observable events of one successful job whose
concurrent frame writes completed in `completionOrder`. -/
def jobTrace (completionOrder : List Nat) : List Event :=
  Event.mkdirOutput :: (completionOrder.map Event.frameWritten ++
    [Event.encoderStarted, Event.promiseResolved, Event.encoderFinished])

/-- Event `e1` occurs at some position strictly before an occurrence of `e2`. -/
def precedes (e1 e2 : Event) (tr : List Event) : Prop :=
  ∃ i j, i < j ∧ tr.get? i = some e1 ∧ tr.get? j = some e2

/-! ### Concrete example inputs used by witnesses -/

/-- A processor built from base directory `out` and options
`{ folder := "job" }` (fps and cleanup left to their defaults). -/
def exampleProcessor : ImageVideoProcessor :=
  ImageVideoProcessor.create "out" { folder := "job", fps? := none, cleanup? := none }

/-- Two concrete image pairs: a 100×200 with a 200×100 (merged VERTICAL), and
two 90×320 images (merged HORIZONTAL, combined ratio exactly 9/16). -/
def examplePairs : List ImagePair :=
  [ { first := { width? := some 100, height? := some 200 }
      second := { width? := some 200, height? := some 100 } },
    { first := { width? := some 90, height? := some 320 }
      second := { width? := some 90, height? := some 320 } } ]

/-- The merged frame of the first example pair (vertical stack, 200×300). -/
def exampleFrame1 : MergedFrame :=
  { create := { width := 200, height := 300, channels := 4
                background := { r := 255, g := 255, b := 255, alpha := 1 } }
    composite :=
      [ { input := { width? := some 100, height? := some 200 }, left := 50, top := 0 },
        { input := { width? := some 200, height? := some 100 }, left := 0, top := 200 } ] }

/-- The merged frame of the second example pair (side by side, 180×320). -/
def exampleFrame2 : MergedFrame :=
  { create := { width := 180, height := 320, channels := 4
                background := { r := 255, g := 255, b := 255, alpha := 1 } }
    composite :=
      [ { input := { width? := some 90, height? := some 320 }, left := 0, top := 0 },
        { input := { width? := some 90, height? := some 320 }, left := 90, top := 0 } ] }

/-- The job result of processing `examplePairs` with `exampleProcessor`. -/
def exampleResult : JobResult :=
  { dirCreated := true
    frameWrites := [(1, exampleFrame1), (2, exampleFrame2)]
    invocation := ffmpegArgs exampleProcessor exampleProcessor.outputDir }

/-! ### Helper lemmas -/

/-- A valid metadata read: dimensions present and nonzero. -/
def validImage (i : Image) : Prop :=
  ∃ w h, i.width? = some w ∧ i.height? = some h ∧ 0 < w ∧ 0 < h

lemma getImageDimensions_ok (img : Image) (w h : Nat)
    (hw : img.width? = some w) (hh : img.height? = some h)
    (pw : 0 < w) (ph : 0 < h) :
    getImageDimensions img =
      .ok { width := w, height := h, aspectRatio := (w : ℚ) / (h : ℚ) } := by
  simp [getImageDimensions, hw, hh, pw.ne', ph.ne']

lemma determineMergeDirection_eq (img1 img2 : Image) (w1 h1 w2 h2 : Nat)
    (hw1 : img1.width? = some w1) (hh1 : img1.height? = some h1)
    (hw2 : img2.width? = some w2) (hh2 : img2.height? = some h2)
    (pw1 : 0 < w1) (ph1 : 0 < h1) (pw2 : 0 < w2) (ph2 : 0 < h2) :
    determineMergeDirection img1 img2 =
      .ok
        (if |((w1 + w2 : Nat) : ℚ) / ((max h1 h2 : Nat) : ℚ) - 9 / 16| <
              |((max w1 w2 : Nat) : ℚ) / ((h1 + h2 : Nat) : ℚ) - 9 / 16|
          then .horizontal else .vertical) := by
  unfold determineMergeDirection
  rw [getImageDimensions_ok img1 w1 h1 hw1 hh1 pw1 ph1,
    getImageDimensions_ok img2 w2 h2 hw2 hh2 pw2 ph2]
  simp only [bind, Except.bind, pure, Except.pure]

lemma sequenceFrames_ok {pairs : List ImagePair} {l : List MergedFrame}
    (h : sequenceFrames pairs = .ok l) :
    l.length = pairs.length ∧
      ∀ i, i < pairs.length →
        ∃ pr f, pairs.get? i = some pr ∧ l.get? i = some f ∧
          mergeImages pr.first pr.second = .ok f := by
  induction pairs generalizing l with
  | nil =>
      simp only [sequenceFrames] at h
      cases h
      simp
  | cons pr rest ih =>
      unfold sequenceFrames at h
      cases e1 : mergeImages pr.first pr.second with
      | error err => rw [e1] at h; simp [bind, Except.bind] at h
      | ok b =>
          rw [e1] at h
          cases e2 : sequenceFrames rest with
          | error err => rw [e2] at h; simp [bind, Except.bind] at h
          | ok bs =>
              rw [e2] at h
              simp only [bind, Except.bind, pure, Except.pure, Except.ok.injEq] at h
              subst h
              obtain ⟨hlen, hall⟩ := ih e2
              refine ⟨by simp [hlen], ?_⟩
              intro i hi
              cases i with
              | zero => exact ⟨pr, b, rfl, rfl, e1⟩
              | succ j =>
                  obtain ⟨pq, f, h1, h2, h3⟩ := hall j (by simpa using hi)
                  exact ⟨pq, f, by simpa using h1, by simpa using h2, h3⟩

lemma processImagesAndCreateVideo_ok {p : ImageVideoProcessor} {pairs : List ImagePair}
    {res : JobResult} (h : processImagesAndCreateVideo p pairs = .ok res) :
    ∃ merged, sequenceFrames pairs = .ok merged ∧
      res = { dirCreated := true, frameWrites := numberFrames 1 merged,
              invocation := ffmpegArgs p p.outputDir } := by
  unfold processImagesAndCreateVideo at h
  cases e : sequenceFrames pairs with
  | error err => rw [e] at h; simp [bind, Except.bind] at h
  | ok merged =>
      rw [e] at h
      simp only [bind, Except.bind, pure, Except.pure, Except.ok.injEq] at h
      exact ⟨merged, rfl, h.symm⟩

lemma numberFrames_keys (l : List MergedFrame) (s : Nat) :
    (numberFrames s l).map Prod.fst = List.range' s l.length := by
  induction l generalizing s with
  | nil => simp [numberFrames]
  | cons b t ih => simp [numberFrames, List.range'_succ, ih]

lemma numberFrames_foldl (l : List MergedFrame) (s n : Nat) (dir : Dir) :
    (numberFrames s l).foldl (fun d w => writeFile d w.1 w.2) dir n =
      if s ≤ n ∧ n < s + l.length then l.get? (n - s) else dir n := by
  induction l generalizing s dir with
  | nil =>
      simp only [numberFrames, List.foldl_nil, List.length_nil, Nat.add_zero]
      rw [if_neg (by omega)]
  | cons b t ih =>
      simp only [numberFrames, List.foldl_cons]
      rw [ih]
      by_cases hn : n = s
      · subst hn
        rw [if_neg (by omega), if_pos (by simp only [List.length_cons]; omega)]
        simp [writeFile]
      · have hw : writeFile dir s b n = dir n := by simp [writeFile, hn]
        by_cases hrange : s + 1 ≤ n ∧ n < s + 1 + t.length
        · rw [if_pos hrange, if_pos (by simp only [List.length_cons]; omega)]
          have hidx : n - s = (n - (s + 1)) + 1 := by omega
          rw [hidx, List.get?_cons_succ]
        · rw [if_neg hrange, if_neg (by simp only [List.length_cons]; omega), hw]

lemma runWrites_numberFrames (l : List MergedFrame) (n : Nat) :
    runWrites (numberFrames 1 l) n =
      if 1 ≤ n ∧ n < 1 + l.length then l.get? (n - 1) else none := by
  unfold runWrites
  exact numberFrames_foldl l 1 n (fun _ => none)

lemma writeFile_comm (dir : Dir) (n1 n2 : Nat) (b1 b2 : MergedFrame) (hne : n1 ≠ n2) :
    writeFile (writeFile dir n1 b1) n2 b2 = writeFile (writeFile dir n2 b2) n1 b1 := by
  funext m
  by_cases h1 : m = n1 <;> by_cases h2 : m = n2 <;> simp_all [writeFile]

/-- The directory contents after all writes complete do not depend on the order
in which the concurrent writes completed, as long as the numeric filenames are
pairwise distinct. -/
lemma runWrites_perm (writes writes' : List (Nat × MergedFrame))
    (hperm : writes.Perm writes') (hnodup : (writes.map Prod.fst).Nodup) :
    runWrites writes = runWrites writes' := by
  unfold runWrites
  refine hperm.foldl_eq' ?_ _
  intro x hx y hy z
  by_cases hxy : x = y
  · subst hxy; rfl
  · have hkey : x.1 ≠ y.1 := fun hk =>
      hxy (List.inj_on_of_nodup_map hnodup hx hy hk)
    exact writeFile_comm z x.1 y.1 x.2 y.2 hkey

lemma exampleDirection1 :
    determineMergeDirection { width? := some 100, height? := some 200 }
      { width? := some 200, height? := some 100 } = .ok .vertical := by
  rw [determineMergeDirection_eq _ _ 100 200 200 100 rfl rfl rfl rfl
    (by decide) (by decide) (by decide) (by decide)]
  rw [if_neg]
  rw [abs_of_nonneg (by norm_num), abs_of_nonneg (by norm_num)]
  norm_num

lemma exampleDirection2 :
    determineMergeDirection { width? := some 90, height? := some 320 }
      { width? := some 90, height? := some 320 } = .ok .horizontal := by
  rw [determineMergeDirection_eq _ _ 90 320 90 320 rfl rfl rfl rfl
    (by decide) (by decide) (by decide) (by decide)]
  rw [if_pos]
  rw [abs_of_nonpos (by norm_num), abs_of_nonpos (by norm_num)]
  norm_num

lemma exampleRun_ok :
    processImagesAndCreateVideo exampleProcessor examplePairs = .ok exampleResult := by
  simp [processImagesAndCreateVideo, sequenceFrames, mergeImages, examplePairs,
    exampleDirection1, exampleDirection2, mergeSideBySide, mergeTopAndBottom,
    bind, Except.bind, pure, Except.pure, numberFrames, exampleResult,
    exampleFrame1, exampleFrame2]

/-! ### C1 -/

/-- C1: for every pair of images with valid (positive integer) dimensions, the
layout selector returns HORIZONTAL iff
`|(wA+wB)/max(hA,hB) − 9/16| < |max(wA,wB)/(hA+hB) − 9/16|`, and VERTICAL
otherwise (equal distances select VERTICAL); the target constant is exactly
`9/16`. -/
theorem selectLayout_iff_distance_lt (img1 img2 : Image) (w1 h1 w2 h2 : Nat)
    (hw1 : img1.width? = some w1) (hh1 : img1.height? = some h1)
    (hw2 : img2.width? = some w2) (hh2 : img2.height? = some h2)
    (pw1 : 0 < w1) (ph1 : 0 < h1) (pw2 : 0 < w2) (ph2 : 0 < h2) :
    (determineMergeDirection img1 img2 = .ok .horizontal ↔
      |((w1 + w2 : Nat) : ℚ) / ((max h1 h2 : Nat) : ℚ) - 9 / 16| <
        |((max w1 w2 : Nat) : ℚ) / ((h1 + h2 : Nat) : ℚ) - 9 / 16|) ∧
    (determineMergeDirection img1 img2 = .ok .vertical ↔
      ¬ |((w1 + w2 : Nat) : ℚ) / ((max h1 h2 : Nat) : ℚ) - 9 / 16| <
        |((max w1 w2 : Nat) : ℚ) / ((h1 + h2 : Nat) : ℚ) - 9 / 16|) := by
  rw [determineMergeDirection_eq img1 img2 w1 h1 w2 h2 hw1 hh1 hw2 hh2 pw1 ph1 pw2 ph2]
  split
  · simp_all
  · simp_all

/-- C1 witness: the spec's concrete scenario, a 100×200 and a 200×100 image
(horizontal distance `|3/2 − 9/16|`, vertical distance `|2/3 − 9/16|`). -/
theorem selectLayout_iff_distance_lt_witness :
    (determineMergeDirection ⟨some 100, some 200⟩ ⟨some 200, some 100⟩ = .ok .horizontal ↔
      |((100 + 200 : Nat) : ℚ) / ((max 200 100 : Nat) : ℚ) - 9 / 16| <
        |((max 100 200 : Nat) : ℚ) / ((200 + 100 : Nat) : ℚ) - 9 / 16|) ∧
    (determineMergeDirection ⟨some 100, some 200⟩ ⟨some 200, some 100⟩ = .ok .vertical ↔
      ¬ |((100 + 200 : Nat) : ℚ) / ((max 200 100 : Nat) : ℚ) - 9 / 16| <
        |((max 100 200 : Nat) : ℚ) / ((200 + 100 : Nat) : ℚ) - 9 / 16|) :=
  selectLayout_iff_distance_lt ⟨some 100, some 200⟩ ⟨some 200, some 100⟩ 100 200 200 100
    rfl rfl rfl rfl (by decide) (by decide) (by decide) (by decide)

/-! ### C9 -/

/-- C9: the layout selector is commutative in its two images: both candidate
ratios `(wA+wB)/max(hA,hB)` and `max(wA,wB)/(hA+hB)` are symmetric in the
pair, so swapping the arguments yields the same MergeDirection. -/
theorem selectLayout_comm (img1 img2 : Image) (w1 h1 w2 h2 : Nat)
    (hw1 : img1.width? = some w1) (hh1 : img1.height? = some h1)
    (hw2 : img2.width? = some w2) (hh2 : img2.height? = some h2)
    (pw1 : 0 < w1) (ph1 : 0 < h1) (pw2 : 0 < w2) (ph2 : 0 < h2) :
    determineMergeDirection img1 img2 = determineMergeDirection img2 img1 := by
  rw [determineMergeDirection_eq img1 img2 w1 h1 w2 h2 hw1 hh1 hw2 hh2 pw1 ph1 pw2 ph2,
    determineMergeDirection_eq img2 img1 w2 h2 w1 h1 hw2 hh2 hw1 hh1 pw2 ph2 pw1 ph1,
    Nat.add_comm w2 w1, Nat.max_comm h2 h1, Nat.max_comm w2 w1, Nat.add_comm h2 h1]

/-- C9 witness: commutativity at the concrete pair 100×200 and 200×100. -/
theorem selectLayout_comm_witness :
    determineMergeDirection ⟨some 100, some 200⟩ ⟨some 200, some 100⟩ =
      determineMergeDirection ⟨some 200, some 100⟩ ⟨some 100, some 200⟩ :=
  selectLayout_comm ⟨some 100, some 200⟩ ⟨some 200, some 100⟩ 100 200 200 100
    rfl rfl rfl rfl (by decide) (by decide) (by decide) (by decide)

/-! ### C2 -/

/-- C2: for every list of N image pairs that all process successfully, frame
sequencing writes exactly the files `1.jpg … N.jpg` (keys `range' 1 N`: no gaps,
no duplicates), the directory contents are the same for every completion order
of the concurrent writes, the file named `i.jpg` holds exactly the merge of the
pair at input position `i-1`, and no file outside `1..N` is written. -/
theorem frameSequencing_contract (p : ImageVideoProcessor) (pairs : List ImagePair)
    (res : JobResult) (hok : processImagesAndCreateVideo p pairs = .ok res)
    (completionOrder : List (Nat × MergedFrame))
    (hperm : completionOrder.Perm res.frameWrites) :
    res.frameWrites.map Prod.fst = List.range' 1 pairs.length ∧
    runWrites completionOrder = runWrites res.frameWrites ∧
    (∀ i, i < pairs.length →
      ∃ pr f, pairs.get? i = some pr ∧
        runWrites res.frameWrites (i + 1) = some f ∧
        mergeImages pr.first pr.second = .ok f) ∧
    (∀ n f, runWrites res.frameWrites n = some f → 1 ≤ n ∧ n ≤ pairs.length) := by
  obtain ⟨merged, hseq, hres⟩ := processImagesAndCreateVideo_ok hok
  have hfw : res.frameWrites = numberFrames 1 merged := by rw [hres]
  obtain ⟨hlen, hall⟩ := sequenceFrames_ok hseq
  rw [hfw] at hperm ⊢
  have hkeys : (numberFrames 1 merged).map Prod.fst = List.range' 1 pairs.length := by
    rw [numberFrames_keys, hlen]
  have hnodup : ((numberFrames 1 merged).map Prod.fst).Nodup := by
    rw [hkeys]; exact List.nodup_range' 1 pairs.length
  refine ⟨hkeys, (runWrites_perm _ _ hperm.symm hnodup).symm, ?_, ?_⟩
  · intro i hi
    obtain ⟨pr, f, h1, h2, h3⟩ := hall i hi
    refine ⟨pr, f, h1, ?_, h3⟩
    rw [runWrites_numberFrames, if_pos (by omega)]
    simpa using h2
  · intro n f hf
    rw [runWrites_numberFrames] at hf
    by_cases hc : 1 ≤ n ∧ n < 1 + merged.length
    · omega
    · rw [if_neg hc] at hf
      exact absurd hf (by simp)

/-- C2 witness: the two concrete example pairs, with the two write completions
arriving in reversed order. -/
theorem frameSequencing_contract_witness :
    exampleResult.frameWrites.map Prod.fst = List.range' 1 examplePairs.length ∧
    runWrites [(2, exampleFrame2), (1, exampleFrame1)] = runWrites exampleResult.frameWrites ∧
    (∀ i, i < examplePairs.length →
      ∃ pr f, examplePairs.get? i = some pr ∧
        runWrites exampleResult.frameWrites (i + 1) = some f ∧
        mergeImages pr.first pr.second = .ok f) ∧
    (∀ n f, runWrites exampleResult.frameWrites n = some f →
      1 ≤ n ∧ n ≤ examplePairs.length) :=
  frameSequencing_contract exampleProcessor examplePairs exampleResult exampleRun_ok
    [(2, exampleFrame2), (1, exampleFrame1)] (by decide)

/-! ### C4 -/

/-- C4: a HORIZONTAL merge of two valid images yields a canvas of width
`wA + wB`, height `max hA hB`, 4 channels, opaque white background, imageA at
left 0 and imageB at left `wA`, each at vertical offset
`⌊(canvasHeight − imageHeight)/2⌋` (`Nat` division, which is that floor since
`canvasHeight ≥ imageHeight`); for mismatched heights the shorter image's
offset is `⌊(taller − shorter)/2⌋` and the taller's is 0. -/
theorem mergeSideBySide_geometry (img1 img2 : Image) (w1 h1 w2 h2 : Nat)
    (hw1 : img1.width? = some w1) (hh1 : img1.height? = some h1)
    (hw2 : img2.width? = some w2) (hh2 : img2.height? = some h2)
    (pw1 : 0 < w1) (ph1 : 0 < h1) (pw2 : 0 < w2) (ph2 : 0 < h2) :
    mergeSideBySide img1 img2 = .ok
      { create :=
          { width := w1 + w2, height := max h1 h2, channels := 4
            background := { r := 255, g := 255, b := 255, alpha := 1 } }
        composite :=
          [ { input := img1, left := 0, top := (max h1 h2 - h1) / 2 },
            { input := img2, left := w1, top := (max h1 h2 - h2) / 2 } ] } ∧
    (h1 < h2 → (max h1 h2 - h1) / 2 = (h2 - h1) / 2 ∧ (max h1 h2 - h2) / 2 = 0) ∧
    (h2 < h1 → (max h1 h2 - h2) / 2 = (h1 - h2) / 2 ∧ (max h1 h2 - h1) / 2 = 0) := by
  refine ⟨?_, fun hlt => ⟨by omega, by omega⟩, fun hlt => ⟨by omega, by omega⟩⟩
  simp [mergeSideBySide, hw1, hw2, hh1, hh2, pw1.ne', pw2.ne', ph1.ne', ph2.ne']

/-- C4 witness: a 100×150 image and a 120×200 image merged side by side. -/
theorem mergeSideBySide_geometry_witness :
    mergeSideBySide ⟨some 100, some 150⟩ ⟨some 120, some 200⟩ = .ok
      { create :=
          { width := 100 + 120, height := max 150 200, channels := 4
            background := { r := 255, g := 255, b := 255, alpha := 1 } }
        composite :=
          [ { input := ⟨some 100, some 150⟩, left := 0, top := (max 150 200 - 150) / 2 },
            { input := ⟨some 120, some 200⟩, left := 100, top := (max 150 200 - 200) / 2 } ] } ∧
    (150 < 200 → (max 150 200 - 150) / 2 = (200 - 150) / 2 ∧ (max 150 200 - 200) / 2 = 0) ∧
    (200 < 150 → (max 150 200 - 200) / 2 = (150 - 200) / 2 ∧ (max 150 200 - 150) / 2 = 0) :=
  mergeSideBySide_geometry ⟨some 100, some 150⟩ ⟨some 120, some 200⟩ 100 150 120 200
    rfl rfl rfl rfl (by decide) (by decide) (by decide) (by decide)

/-! ### C5 -/

/-- C5: a VERTICAL merge of two valid images yields a canvas of height
`hA + hB`, width `max wA wB`, 4 channels, opaque white background, imageA at
top 0 and imageB at top `hA`, each at horizontal offset
`⌊(canvasWidth − imageWidth)/2⌋`; for two images of equal dimensions `w×h`
the canvas is `w × 2h` with both horizontal offsets 0. -/
theorem mergeTopAndBottom_geometry (img1 img2 : Image) (w1 h1 w2 h2 : Nat)
    (hw1 : img1.width? = some w1) (hh1 : img1.height? = some h1)
    (hw2 : img2.width? = some w2) (hh2 : img2.height? = some h2)
    (pw1 : 0 < w1) (ph1 : 0 < h1) (pw2 : 0 < w2) (ph2 : 0 < h2) :
    mergeTopAndBottom img1 img2 = .ok
      { create :=
          { width := max w1 w2, height := h1 + h2, channels := 4
            background := { r := 255, g := 255, b := 255, alpha := 1 } }
        composite :=
          [ { input := img1, left := (max w1 w2 - w1) / 2, top := 0 },
            { input := img2, left := (max w1 w2 - w2) / 2, top := h1 } ] } ∧
    (w1 = w2 ∧ h1 = h2 →
      max w1 w2 = w1 ∧ h1 + h2 = 2 * h1 ∧
        (max w1 w2 - w1) / 2 = 0 ∧ (max w1 w2 - w2) / 2 = 0) := by
  refine ⟨?_, fun heq => ⟨by omega, by omega, by omega, by omega⟩⟩
  simp [mergeTopAndBottom, hw1, hw2, hh1, hh2, pw1.ne', pw2.ne', ph1.ne', ph2.ne']

/-- C5 witness: two equal 100×150 images merged top and bottom. -/
theorem mergeTopAndBottom_geometry_witness :
    mergeTopAndBottom ⟨some 100, some 150⟩ ⟨some 100, some 150⟩ = .ok
      { create :=
          { width := max 100 100, height := 150 + 150, channels := 4
            background := { r := 255, g := 255, b := 255, alpha := 1 } }
        composite :=
          [ { input := ⟨some 100, some 150⟩, left := (max 100 100 - 100) / 2, top := 0 },
            { input := ⟨some 100, some 150⟩, left := (max 100 100 - 100) / 2, top := 150 } ] } ∧
    ((100 : Nat) = 100 ∧ (150 : Nat) = 150 →
      max 100 100 = 100 ∧ 150 + 150 = 2 * 150 ∧
        (max 100 100 - 100) / 2 = 0 ∧ (max 100 100 - 100) / 2 = 0) :=
  mergeTopAndBottom_geometry ⟨some 100, some 150⟩ ⟨some 100, some 150⟩ 100 150 100 150
    rfl rfl rfl rfl (by decide) (by decide) (by decide) (by decide)

/-! ### C6 -/

lemma getImageDimensions_ok_valid {img : Image} {d : ImageDimensions}
    (h : getImageDimensions img = .ok d) : validImage img := by
  unfold getImageDimensions at h
  cases hw : img.width? with
  | none => rw [hw] at h; cases hh : img.height? <;> rw [hh] at h <;> cases h
  | some w =>
      rw [hw] at h
      cases hh : img.height? with
      | none => rw [hh] at h; cases h
      | some ht =>
          rw [hh] at h
          by_cases hz : w = 0 ∨ ht = 0
          · simp [hz] at h
          · exact ⟨w, ht, hw, hh, by omega, by omega⟩

lemma determineMergeDirection_ok_valid {img1 img2 : Image} {dir : MergeDirection}
    (h : determineMergeDirection img1 img2 = .ok dir) :
    validImage img1 ∧ validImage img2 := by
  unfold determineMergeDirection at h
  cases e1 : getImageDimensions img1 with
  | error err => rw [e1] at h; simp [bind, Except.bind] at h
  | ok d1 =>
      rw [e1] at h
      cases e2 : getImageDimensions img2 with
      | error err => rw [e2] at h; simp [bind, Except.bind] at h
      | ok d2 => exact ⟨getImageDimensions_ok_valid e1, getImageDimensions_ok_valid e2⟩

lemma mergeImages_ok_valid {img1 img2 : Image} {f : MergedFrame}
    (h : mergeImages img1 img2 = .ok f) : validImage img1 ∧ validImage img2 := by
  unfold mergeImages at h
  cases e : determineMergeDirection img1 img2 with
  | error err => rw [e] at h; simp [bind, Except.bind] at h
  | ok dir => exact determineMergeDirection_ok_valid e

/-- C6: if any input image's width or height cannot be determined (or is zero),
the whole processing job fails with the invalid-metadata error and never
produces a job result — in particular, the encoder is never invoked. -/
theorem invalidMetadata_fails_job (p : ImageVideoProcessor) (pairs : List ImagePair)
    (hbad : ∃ pr ∈ pairs, ¬ validImage pr.first ∨ ¬ validImage pr.second) :
    processImagesAndCreateVideo p pairs = .error .invalidMetadata ∧
      ∀ res : JobResult, processImagesAndCreateVideo p pairs ≠ .ok res := by
  cases hres : processImagesAndCreateVideo p pairs with
  | error e => cases e; exact ⟨rfl, by simp⟩
  | ok res =>
      exfalso
      obtain ⟨pr, hmem, hinv⟩ := hbad
      obtain ⟨merged, hseq, _⟩ := processImagesAndCreateVideo_ok hres
      obtain ⟨hlen, hall⟩ := sequenceFrames_ok hseq
      obtain ⟨i, hget⟩ := List.mem_iff_get?.mp hmem
      have hi : i < pairs.length := by
        rcases List.get?_eq_some.mp hget with ⟨hb, _⟩; exact hb
      obtain ⟨pq, f, h1, h2, h3⟩ := hall i hi
      rw [hget] at h1
      cases h1
      obtain ⟨v1, v2⟩ := mergeImages_ok_valid h3
      tauto

/-- C6 witness: a single pair whose first image has no readable width. -/
theorem invalidMetadata_fails_job_witness :
    processImagesAndCreateVideo exampleProcessor
        [ { first := { width? := none, height? := some 100 }
            second := { width? := some 100, height? := some 100 } } ] =
      .error .invalidMetadata ∧
    ∀ res : JobResult, processImagesAndCreateVideo exampleProcessor
        [ { first := { width? := none, height? := some 100 }
            second := { width? := some 100, height? := some 100 } } ] ≠ .ok res :=
  invalidMetadata_fails_job exampleProcessor _
    ⟨{ first := { width? := none, height? := some 100 }
       second := { width? := some 100, height? := some 100 } },
      List.mem_singleton.mpr rfl,
      Or.inl (by rintro ⟨w, ht, hw, hh, pw, ph⟩; cases hw)⟩

/-! ### C7 -/

/-- C7: for every completion order of the concurrent frame writes, every frame
write completes before the encoder is started, the encoder is started before
the promise resolves with the stream, and the promise resolves strictly before
the encoder finishes (resolution does not wait for encoding completion). -/
theorem streamResolution_order (n : Nat) (completionOrder : List Nat)
    (hperm : completionOrder.Perm (List.range n)) :
    (∀ i, i < n → precedes (.frameWritten i) .encoderStarted (jobTrace completionOrder)) ∧
    (∀ i, i < n → precedes (.frameWritten i) .promiseResolved (jobTrace completionOrder)) ∧
    precedes .encoderStarted .promiseResolved (jobTrace completionOrder) ∧
    precedes .promiseResolved .encoderFinished (jobTrace completionOrder) := by
  have hlen : completionOrder.length = n := by
    simpa using hperm.length_eq
  have hMlen : (completionOrder.map Event.frameWritten).length = n := by
    simpa using hlen
  have htail : ∀ k : Nat,
      (jobTrace completionOrder).get? (k + 1) =
        (completionOrder.map Event.frameWritten ++
          [Event.encoderStarted, Event.promiseResolved, Event.encoderFinished]).get? k := by
    intro k
    simp [jobTrace]
  have hstart : (jobTrace completionOrder).get? (n + 1) = some .encoderStarted := by
    rw [htail n, List.get?_append_right (by omega), hMlen]
    simp
  have hresolved : (jobTrace completionOrder).get? (n + 2) = some .promiseResolved := by
    rw [htail (n + 1), List.get?_append_right (by omega), hMlen]
    have : n + 1 - n = 1 := by omega
    rw [this]
    rfl
  have hfinished : (jobTrace completionOrder).get? (n + 3) = some .encoderFinished := by
    rw [htail (n + 2), List.get?_append_right (by omega), hMlen]
    have : n + 2 - n = 2 := by omega
    rw [this]
    rfl
  have hwrite : ∀ i, i < n → ∃ k, k < n ∧
      (jobTrace completionOrder).get? (k + 1) = some (.frameWritten i) := by
    intro i hi
    have hmem : i ∈ completionOrder := hperm.mem_iff.mpr (List.mem_range.mpr hi)
    obtain ⟨k, hk⟩ := List.mem_iff_get?.mp hmem
    have hklt : k < completionOrder.length := by
      rcases List.get?_eq_some.mp hk with ⟨hb, _⟩; exact hb
    refine ⟨k, by omega, ?_⟩
    rw [htail k, List.get?_append (by rw [hMlen]; omega), List.get?_map, hk]
    rfl
  refine ⟨?_, ?_, ?_, ?_⟩
  · intro i hi
    obtain ⟨k, hklt, hkget⟩ := hwrite i hi
    exact ⟨k + 1, n + 1, by omega, hkget, hstart⟩
  · intro i hi
    obtain ⟨k, hklt, hkget⟩ := hwrite i hi
    exact ⟨k + 1, n + 2, by omega, hkget, hresolved⟩
  · exact ⟨n + 1, n + 2, by omega, hstart, hresolved⟩
  · exact ⟨n + 2, n + 3, by omega, hresolved, hfinished⟩

/-- C7 witness: two frame writes completing in reversed order. -/
theorem streamResolution_order_witness :
    (∀ i, i < 2 → precedes (.frameWritten i) .encoderStarted (jobTrace [1, 0])) ∧
    (∀ i, i < 2 → precedes (.frameWritten i) .promiseResolved (jobTrace [1, 0])) ∧
    precedes .encoderStarted .promiseResolved (jobTrace [1, 0]) ∧
    precedes .promiseResolved .encoderFinished (jobTrace [1, 0]) :=
  streamResolution_order 2 [1, 0] (by decide)

/-! ### C8 -/

/-- C8: whenever a job runs, the encoder is invoked with input path pattern
`<outputDir>/%d.jpg`, input frame rate equal to the configured fps (defaulting
to 24 when the option is absent), format `mp4`, codec `libx264`, and the
fragmentation flags `-movflags frag_keyframe+empty_moov`. -/
theorem encoderInvocation_args (envDir : String) (opts : ProcessingOptions)
    (pairs : List ImagePair) (res : JobResult)
    (hok : processImagesAndCreateVideo (ImageVideoProcessor.create envDir opts) pairs = .ok res) :
    res.invocation.input = (ImageVideoProcessor.create envDir opts).outputDir ++ "/%d.jpg" ∧
    res.invocation.inputFPS = opts.fps?.getD 24 ∧
    (opts.fps? = none → res.invocation.inputFPS = 24) ∧
    res.invocation.format = "mp4" ∧
    res.invocation.videoCodec = "libx264" ∧
    res.invocation.outputOptions = ["-movflags frag_keyframe+empty_moov"] := by
  obtain ⟨merged, hseq, hres⟩ := processImagesAndCreateVideo_ok hok
  subst hres
  exact ⟨rfl, rfl, fun hnone => by simp [ImageVideoProcessor.create, ffmpegArgs, hnone],
    rfl, rfl, rfl⟩

/-- C8 witness: a zero-pair job on the example processor (fps omitted). -/
theorem encoderInvocation_args_witness :
    exampleResult.invocation.input =
      (ImageVideoProcessor.create "out" { folder := "job", fps? := none, cleanup? := none }).outputDir
        ++ "/%d.jpg" ∧
    exampleResult.invocation.inputFPS =
      ({ folder := "job", fps? := none, cleanup? := none } : ProcessingOptions).fps?.getD 24 ∧
    (({ folder := "job", fps? := none, cleanup? := none } : ProcessingOptions).fps? = none →
      exampleResult.invocation.inputFPS = 24) ∧
    exampleResult.invocation.format = "mp4" ∧
    exampleResult.invocation.videoCodec = "libx264" ∧
    exampleResult.invocation.outputOptions = ["-movflags frag_keyframe+empty_moov"] :=
  encoderInvocation_args "out" { folder := "job", fps? := none, cleanup? := none }
    examplePairs exampleResult exampleRun_ok

/-! ### C10 -/

/-- C10: an empty input list does not fail: the output directory is still
created, no frame file is written, the encoder is invoked against the (empty)
output directory, and the stream is returned. -/
theorem emptyInput_succeeds (p : ImageVideoProcessor) :
    processImagesAndCreateVideo p [] =
      .ok { dirCreated := true, frameWrites := [], invocation := ffmpegArgs p p.outputDir } := rfl

/-! ### C3 -/

/-- C3 (refuted — code bug): if the encoder process exits abnormally after the
stream was returned, the consumer-visible PassThrough state is identical to the
successful run — ended without error — because the promise was already resolved
(the `reject(err)` in the error handler is a no-op) and no handler errors or
destroys the stream.  The consumer cannot distinguish a crash from a normal
end of stream. -/
theorem encoderCrash_indistinguishable_from_success :
    (createVideoRun (.crashed "ffmpeg exited with code 1" "" "")).2 =
      (createVideoRun .finished).2 ∧
    (createVideoRun (.crashed "ffmpeg exited with code 1" "" "")).2 =
      { errored := none, ended := true } ∧
    (createVideoRun (.crashed "ffmpeg exited with code 1" "" "")).1 = .resolvedStream :=
  ⟨rfl, rfl, rfl⟩

end RTCam
